import Mathlib

/-!
# The todo slice of `src/features/todos/todoSlice.js`

A shallow embedding of the slice's data model (`initialState`) and of its three
reducers `addTodo`, `updateTodo` and `removeTodo`, followed by the properties
proved about them.

Modelling decisions:

* An item id is a JavaScript number (the seeded item has `id: 1`) or a JavaScript
  string (`nanoid()` returns a string); `===` never identifies the two.
* `nanoid()` is a call into the outside world.  The value it returns in a run of
  `addTodo` is an explicit argument of the embedded reducer.
* The reducers run under Immer: a write to the draft (`push`, `todo.text = ...`,
  `state.todos = ...`) yields the next slice, which the embedded reducer returns.
-/

namespace TodoSlice

/-! ## Data model -/

/-- An item identifier: a number or a string. -/
inductive TodoId where
  | num (n : Int)
  | str (s : String)
  deriving DecidableEq, Repr

/-- The strict equality `===` of JavaScript on identifiers: two values of different
types are never equal, two values of the same type are compared by value. -/
def strictEq : TodoId → TodoId → Bool
  | .num a, .num b => a == b
  | .str a, .str b => a == b
  | _, _ => false

/-- A to-do item `{ id, text }`. -/
structure TodoItem where
  id : TodoId
  text : String
  deriving DecidableEq, Repr

/-- The slice `{ todos: [...] }`. -/
structure TodoListState where
  todos : List TodoItem
  deriving DecidableEq, Repr

/-- The slice the store starts from (lines 4-11). -/
def initialState : TodoListState :=
  { todos := [{ id := .num 1, text := "Hello everyone." }] }

/-- Payload read by `addTodo`: `action.payload.text`. -/
structure AddPayload where
  text : String
  deriving DecidableEq, Repr

/-- Payload read by `updateTodo`: `action.payload.id` and `action.payload.text`. -/
structure UpdatePayload where
  id : TodoId
  text : String
  deriving DecidableEq, Repr

/-- Payload read by `removeTodo`: `action.payload.id`. -/
structure RemovePayload where
  id : TodoId
  deriving DecidableEq, Repr

/-! ## Reducers -/

/-- The reducer `addTodo` (lines 17-23): builds `{ id: nanoid(), text: action.payload.text }`
and pushes it onto `state.todos`.  The argument `nanoid` is the string returned by the
call `nanoid()` of this run. -/
def addTodo (nanoid : String) (state : TodoListState) (payload : AddPayload) : TodoListState :=
  let todo : TodoItem := { id := .str nanoid, text := payload.text }
  { todos := state.todos.concat todo }

/-- The method `Array.prototype.find`, as the position of the element it returns: the
first element that satisfies the predicate, `none` for `undefined`. -/
def find (p : TodoItem → Bool) : List TodoItem → Option Nat
  | [] => none
  | t :: ts => if p t then some 0 else (find p ts).map (· + 1)

/-- The assignment `todo.text = text` on the element at position `i` of the draft. -/
def setText (text : String) : Nat → List TodoItem → List TodoItem
  | _, [] => []
  | 0, t :: ts => { t with text := text } :: ts
  | i + 1, t :: ts => t :: setText text i ts

/-- The reducer `updateTodo` (lines 29-34): finds the first item with
`t.id === action.payload.id` and, when there is one, assigns its `text`. -/
def updateTodo (state : TodoListState) (payload : UpdatePayload) : TodoListState :=
  match find (fun t => strictEq t.id payload.id) state.todos with
  | some i => { todos := setText payload.text i state.todos }
  | none => state

/-- The reducer `removeTodo` (lines 35-37): `state.todos` becomes the items with
`t.id !== action.payload.id`. -/
def removeTodo (state : TodoListState) (payload : RemovePayload) : TodoListState :=
  { todos := state.todos.filter (fun t => !strictEq t.id payload.id) }

/-- The commented-out reducer `updateTodo` (lines 24-28): `state.todos` becomes the `map`
of the items, every item with `t.id === action.payload.id` replaced by
`{ ...t, text: action.payload.text }`. -/
def updateTodoMap (state : TodoListState) (payload : UpdatePayload) : TodoListState :=
  { todos := state.todos.map
      (fun t => if strictEq t.id payload.id then { t with text := payload.text } else t) }

/-! ## The slice reducer and runs of it -/

/-- An action as it is dispatched: the name of a reducer of the slice and its payload. -/
inductive Action where
  | addTodo (payload : AddPayload)
  | updateTodo (payload : UpdatePayload)
  | removeTodo (payload : RemovePayload)
  deriving DecidableEq, Repr

/-- One run of the slice reducer built by `createSlice`: the case reducer named by the
action is applied to the slice.  The argument `nanoid` is the string that `nanoid()`
returns when this run calls it (only `addTodo` does). -/
def reducer (nanoid : String) (state : TodoListState) : Action → TodoListState
  | .addTodo payload => addTodo nanoid state payload
  | .updateTodo payload => updateTodo state payload
  | .removeTodo payload => removeTodo state payload

/-- A finite sequence of runs, in dispatch order, each with the value the generator holds
ready for it. -/
def dispatchAll (state : TodoListState) : List (String × Action) → TodoListState
  | [] => state
  | (nanoid, action) :: rest => dispatchAll (reducer nanoid state action) rest

/-- The identifiers that the generator hands out along a sequence of runs: one for each
`addTodo`, in order. -/
def generated : List (String × Action) → List String
  | [] => []
  | (nanoid, .addTodo _) :: rest => nanoid :: generated rest
  | (_, .updateTodo _) :: rest => generated rest
  | (_, .removeTodo _) :: rest => generated rest

/-- The ids of the items of a slice, in order. -/
def ids (state : TodoListState) : List TodoId :=
  state.todos.map TodoItem.id

/-! ## Runs of the reducers as JavaScript executes them

The reducers above take a payload that carries the fields they read.  The definitions
below follow the same source lines one level lower: the action may come without a payload
(`action.payload` is `undefined`), reading a property of `undefined` throws a `TypeError`,
and the generator `nanoid` is in scope of every reducer body, whether the body calls it or
not.  A run ends in a next slice or in the error thrown. -/

/-- What a run throws instead of returning a next slice. -/
inductive JsError where
  | typeError
  deriving DecidableEq, Repr

/-- The expression `action.payload.field`: a `TypeError` when `action.payload` is
`undefined`, the value of the field otherwise. -/
def readPayload {α β : Type} (payload : Option α) (field : α → β) : Except JsError β :=
  match payload with
  | none => .error .typeError
  | some p => .ok (field p)

/-- The method `Array.prototype.find` with a callback that may throw: the callback is
called on the items in order until it returns `true`; an error it throws ends the run. -/
def findRun (p : TodoItem → Except JsError Bool) : List TodoItem → Except JsError (Option Nat)
  | [] => .ok none
  | t :: ts =>
    match p t with
    | .error e => .error e
    | .ok true => .ok (some 0)
    | .ok false =>
      match findRun p ts with
      | .error e => .error e
      | .ok r => .ok (r.map (· + 1))

/-- The method `Array.prototype.filter` with a callback that may throw: the callback is
called on every item in order; an error it throws ends the run. -/
def filterRun (p : TodoItem → Except JsError Bool) :
    List TodoItem → Except JsError (List TodoItem)
  | [] => .ok []
  | t :: ts =>
    match p t with
    | .error e => .error e
    | .ok keep =>
      match filterRun p ts with
      | .error e => .error e
      | .ok r => .ok (if keep then t :: r else r)

/-- A run of `addTodo` (lines 17-23): `nanoid()` is called, `action.payload.text` is read,
the item is pushed. -/
def addTodoRun (nanoid : String) (state : TodoListState) (payload : Option AddPayload) :
    Except JsError TodoListState :=
  match readPayload payload AddPayload.text with
  | .error e => .error e
  | .ok text => .ok { todos := state.todos.concat { id := .str nanoid, text := text } }

/-- A run of `updateTodo` (lines 29-34): the callback of `find` reads `action.payload.id`
for each item it is called on; when an item is found `action.payload.text` is read and
assigned.  The body does not call `nanoid()`. -/
def updateTodoRun (_nanoid : String) (state : TodoListState) (payload : Option UpdatePayload) :
    Except JsError TodoListState :=
  match findRun (fun t =>
      match readPayload payload UpdatePayload.id with
      | .error e => .error e
      | .ok id => .ok (strictEq t.id id)) state.todos with
  | .error e => .error e
  | .ok none => .ok state
  | .ok (some i) =>
    match readPayload payload UpdatePayload.text with
    | .error e => .error e
    | .ok text => .ok { todos := setText text i state.todos }

/-- A run of `removeTodo` (lines 35-37): the callback of `filter` reads
`action.payload.id` for each item.  The body does not call `nanoid()`. -/
def removeTodoRun (_nanoid : String) (state : TodoListState) (payload : Option RemovePayload) :
    Except JsError TodoListState :=
  match filterRun (fun t =>
      match readPayload payload RemovePayload.id with
      | .error e => .error e
      | .ok id => .ok (!strictEq t.id id)) state.todos with
  | .error e => .error e
  | .ok todos => .ok { todos := todos }

/-! ## Basic facts about the embedding -/

theorem strictEq_iff (a b : TodoId) : strictEq a b = true ↔ a = b := by
  cases a <;> cases b <;> simp [strictEq]

theorem strictEq_eq_decide (a b : TodoId) : strictEq a b = decide (a = b) := by
  by_cases h : a = b
  · simp [h, (strictEq_iff b b).2 rfl]
  · have : strictEq a b ≠ true := fun hh => h ((strictEq_iff a b).1 hh)
    simp [h, this]

/-- The list part of `updateTodo`, unfolded along the list. -/
theorem updateTodo_nil (payload : UpdatePayload) :
    (updateTodo { todos := [] } payload).todos = [] := by
  simp [updateTodo, find]

theorem updateTodo_cons_eq (t : TodoItem) (ts : List TodoItem) (payload : UpdatePayload)
    (h : t.id = payload.id) :
    (updateTodo { todos := t :: ts } payload).todos = { t with text := payload.text } :: ts := by
  simp [updateTodo, find, (strictEq_iff t.id payload.id).2 h, setText]

theorem updateTodo_cons_ne (t : TodoItem) (ts : List TodoItem) (payload : UpdatePayload)
    (h : t.id ≠ payload.id) :
    (updateTodo { todos := t :: ts } payload).todos
      = t :: (updateTodo { todos := ts } payload).todos := by
  have hne : strictEq t.id payload.id = false := by
    simp [strictEq_eq_decide, h]
  simp only [updateTodo, find, hne]
  cases hf : find (fun t => strictEq t.id payload.id) ts <;> simp [setText]

theorem removeTodo_todos (state : TodoListState) (payload : RemovePayload) :
    (removeTodo state payload).todos
      = state.todos.filter (fun t => decide (t.id ≠ payload.id)) := by
  simp [removeTodo, strictEq_eq_decide]

theorem updateTodo_length (l : List TodoItem) (payload : UpdatePayload) :
    (updateTodo { todos := l } payload).todos.length = l.length := by
  induction l with
  | nil => simp [updateTodo_nil]
  | cons t ts ih =>
    by_cases h : t.id = payload.id
    · simp [updateTodo_cons_eq t ts payload h]
    · simp [updateTodo_cons_ne t ts payload h, ih]

theorem updateTodo_map_id (l : List TodoItem) (payload : UpdatePayload) :
    (updateTodo { todos := l } payload).todos.map TodoItem.id = l.map TodoItem.id := by
  induction l with
  | nil => simp [updateTodo_nil]
  | cons t ts ih =>
    by_cases h : t.id = payload.id
    · simp [updateTodo_cons_eq t ts payload h]
    · simp [updateTodo_cons_ne t ts payload h, ih]

theorem updateTodo_findIdx (l : List TodoItem) (payload : UpdatePayload) :
    (updateTodo { todos := l } payload).todos.findIdx (fun t => decide (t.id = payload.id))
      = l.findIdx (fun t => decide (t.id = payload.id)) := by
  induction l with
  | nil => simp [updateTodo_nil]
  | cons t ts ih =>
    by_cases h : t.id = payload.id
    · simp [updateTodo_cons_eq t ts payload h, List.findIdx_cons, h]
    · simp [updateTodo_cons_ne t ts payload h, List.findIdx_cons, h, ih]

theorem updateTodo_getElem?_ne (l : List TodoItem) (payload : UpdatePayload) (j : Nat)
    (hj : j ≠ l.findIdx (fun t => decide (t.id = payload.id))) :
    (updateTodo { todos := l } payload).todos[j]? = l[j]? := by
  induction l generalizing j with
  | nil => simp [updateTodo_nil]
  | cons t ts ih =>
    by_cases h : t.id = payload.id
    · simp [List.findIdx_cons, h] at hj
      obtain ⟨k, rfl⟩ := Nat.exists_eq_succ_of_ne_zero hj
      simp [updateTodo_cons_eq t ts payload h]
    · rw [updateTodo_cons_ne t ts payload h]
      cases j with
      | zero => simp
      | succ k =>
        simp [List.findIdx_cons, h] at hj
        simpa using ih k hj

theorem updateTodo_getElem?_eq (l : List TodoItem) (payload : UpdatePayload)
    (hlt : l.findIdx (fun t => decide (t.id = payload.id)) < l.length) :
    (updateTodo { todos := l } payload).todos[l.findIdx (fun t => decide (t.id = payload.id))]?
      = some { id := payload.id, text := payload.text } := by
  induction l with
  | nil => simp at hlt
  | cons t ts ih =>
    by_cases h : t.id = payload.id
    · simp [updateTodo_cons_eq t ts payload h, List.findIdx_cons, h]
    · have hlt2 : ts.findIdx (fun t => decide (t.id = payload.id)) < ts.length := by
        simp only [List.findIdx_cons, h, decide_False, cond_false, List.length_cons] at hlt
        omega
      simpa [updateTodo_cons_ne t ts payload h, List.findIdx_cons, h] using ih hlt2

theorem updateTodo_absent (l : List TodoItem) (payload : UpdatePayload)
    (h : ∀ t ∈ l, t.id ≠ payload.id) :
    updateTodo { todos := l } payload = { todos := l } := by
  have hf : find (fun t => strictEq t.id payload.id) l = none := by
    induction l with
    | nil => rfl
    | cons t ts ih =>
      have h1 : strictEq t.id payload.id = false := by
        simp [strictEq_eq_decide, h t (List.mem_cons_self _ _)]
      simp [find, h1, ih (fun u hu => h u (List.mem_cons_of_mem _ hu))]
  simp [updateTodo, hf]

theorem ids_addTodo (nanoid : String) (state : TodoListState) (payload : AddPayload) :
    ids (addTodo nanoid state payload) = ids state ++ [TodoId.str nanoid] := by
  simp [ids, addTodo]

theorem ids_updateTodo (state : TodoListState) (payload : UpdatePayload) :
    ids (updateTodo state payload) = ids state := by
  obtain ⟨l⟩ := state
  exact updateTodo_map_id l payload

theorem ids_removeTodo_sublist (state : TodoListState) (payload : RemovePayload) :
    (ids (removeTodo state payload)).Sublist (ids state) := by
  simp only [ids, removeTodo]
  exact List.Sublist.map _ (List.filter_sublist _)

/-- The invariant carried along a sequence of runs: ids pairwise distinct, and every
string id in the slice among the identifiers `used` so far. -/
theorem dispatchAll_nodup_aux (runs : List (String × Action)) :
    ∀ (state : TodoListState) (used : List String),
      (ids state).Nodup →
      (∀ g, TodoId.str g ∈ ids state → g ∈ used) →
      (used ++ generated runs).Nodup →
      (ids (dispatchAll state runs)).Nodup := by
  induction runs with
  | nil => intro state used hnd _ _; simpa [dispatchAll] using hnd
  | cons r rest ih =>
    intro state used hnd hused hgen
    obtain ⟨g, a⟩ := r
    cases a with
    | addTodo payload =>
      simp only [dispatchAll, reducer]
      simp only [generated] at hgen
      have hg : g ∉ used := by
        intro hmem
        have := (List.nodup_append.1 hgen).2.2
        exact this hmem (List.mem_cons_self _ _)
      refine ih _ (used ++ [g]) ?_ ?_ ?_
      · rw [ids_addTodo]
        refine List.nodup_append.2 ⟨hnd, by simp, ?_⟩
        intro x hx hx2
        rw [List.mem_singleton] at hx2
        subst hx2
        exact hg (hused g hx)
      · intro g2 hg2
        rw [ids_addTodo, List.mem_append] at hg2
        rcases hg2 with h1 | h1
        · exact List.mem_append_left _ (hused g2 h1)
        · simp only [List.mem_singleton, TodoId.str.injEq] at h1
          simp [h1]
      · simpa [List.append_assoc] using hgen
    | updateTodo payload =>
      simp only [dispatchAll, reducer]
      simp only [generated] at hgen
      refine ih _ used ?_ ?_ hgen
      · rw [ids_updateTodo]; exact hnd
      · rw [ids_updateTodo]; exact hused
    | removeTodo payload =>
      simp only [dispatchAll, reducer]
      simp only [generated] at hgen
      refine ih _ used ?_ ?_ hgen
      · exact List.Nodup.sublist (ids_removeTodo_sublist state payload) hnd
      · intro g2 hg2
        exact hused g2 ((ids_removeTodo_sublist state payload).subset hg2)

theorem updateTodoMap_cons (t : TodoItem) (ts : List TodoItem) (payload : UpdatePayload) :
    (updateTodoMap { todos := t :: ts } payload).todos
      = (if t.id = payload.id then { t with text := payload.text } else t)
          :: (updateTodoMap { todos := ts } payload).todos := by
  simp [updateTodoMap, strictEq_eq_decide]

theorem updateTodoMap_absent (l : List TodoItem) (payload : UpdatePayload)
    (h : ∀ t ∈ l, t.id ≠ payload.id) :
    (updateTodoMap { todos := l } payload).todos = l := by
  induction l with
  | nil => simp [updateTodoMap]
  | cons t ts ih =>
    rw [updateTodoMap_cons, ih (fun u hu => h u (List.mem_cons_of_mem _ hu))]
    simp [h t (List.mem_cons_self _ _)]

/-- Two updates on one id, on the list of items: the second text stands. -/
theorem updateTodo_updateTodo_todos (l : List TodoItem) (id : TodoId) (t₁ t₂ : String) :
    (updateTodo { todos := (updateTodo { todos := l } { id := id, text := t₁ }).todos }
        { id := id, text := t₂ }).todos
      = (updateTodo { todos := l } { id := id, text := t₂ }).todos := by
  induction l with
  | nil => simp [updateTodo_nil]
  | cons t ts ih =>
    by_cases h : t.id = id
    · have e1 := updateTodo_cons_eq t ts { id := id, text := t₁ } h
      have e2 := updateTodo_cons_eq { t with text := t₁ } ts { id := id, text := t₂ } h
      have e3 := updateTodo_cons_eq t ts { id := id, text := t₂ } h
      rw [e1, e3]
      simpa using e2
    · have e1 := updateTodo_cons_ne t ts { id := id, text := t₁ } h
      have e2 := updateTodo_cons_ne t (updateTodo { todos := ts } { id := id, text := t₁ }).todos
        { id := id, text := t₂ } h
      have e3 := updateTodo_cons_ne t ts { id := id, text := t₂ } h
      rw [e1, e3, e2, ih]

theorem findRun_wellFormed (payload : UpdatePayload) (l : List TodoItem) :
    findRun (fun t =>
        match readPayload (some payload) UpdatePayload.id with
        | .error e => .error e
        | .ok id => .ok (strictEq t.id id)) l
      = .ok (find (fun t => strictEq t.id payload.id) l) := by
  induction l with
  | nil => rfl
  | cons t ts ih =>
    simp only [readPayload] at ih ⊢
    cases h : strictEq t.id payload.id <;> simp [findRun, find, h, ih]

theorem filterRun_wellFormed (payload : RemovePayload) (l : List TodoItem) :
    filterRun (fun t =>
        match readPayload (some payload) RemovePayload.id with
        | .error e => .error e
        | .ok id => .ok (!strictEq t.id id)) l
      = .ok (l.filter (fun t => !strictEq t.id payload.id)) := by
  induction l with
  | nil => rfl
  | cons t ts ih =>
    simp only [readPayload] at ih ⊢
    cases h : strictEq t.id payload.id <;> simp [filterRun, h, ih]

/-- On a well-formed payload a run of `updateTodo` returns, and returns what the reducer
`updateTodo` computes. -/
theorem updateTodoRun_wellFormed (nanoid : String) (state : TodoListState)
    (payload : UpdatePayload) :
    updateTodoRun nanoid state (some payload) = .ok (updateTodo state payload) := by
  simp only [updateTodoRun, findRun_wellFormed, updateTodo]
  cases find (fun t => strictEq t.id payload.id) state.todos <;> simp [readPayload]

/-- On a well-formed payload a run of `removeTodo` returns, and returns what the reducer
`removeTodo` computes. -/
theorem removeTodoRun_wellFormed (nanoid : String) (state : TodoListState)
    (payload : RemovePayload) :
    removeTodoRun nanoid state (some payload) = .ok (removeTodo state payload) := by
  simp only [removeTodoRun, filterRun_wellFormed, removeTodo]

/-- On a well-formed payload a run of `addTodo` returns, and returns what the reducer
`addTodo` computes with the identifier of this run. -/
theorem addTodoRun_wellFormed (nanoid : String) (state : TodoListState)
    (payload : AddPayload) :
    addTodoRun nanoid state (some payload) = .ok (addTodo nanoid state payload) := by
  simp [addTodoRun, readPayload, addTodo]

/-- Without a payload the runs on the initial slice throw: the first read of
`action.payload` fails.  On an empty `todos` the callbacks of `find` and `filter` are never
called, and `updateTodo` and `removeTodo` return the slice. -/
theorem runs_without_payload (nanoid : String) :
    addTodoRun nanoid initialState none = .error .typeError
      ∧ updateTodoRun nanoid initialState none = .error .typeError
      ∧ removeTodoRun nanoid initialState none = .error .typeError
      ∧ updateTodoRun nanoid { todos := [] } none = .ok { todos := [] }
      ∧ removeTodoRun nanoid { todos := [] } none = .ok { todos := [] } := by
  simp [addTodoRun, updateTodoRun, removeTodoRun, readPayload, findRun, filterRun, initialState]

/-! ## Claims -/

/-- C1: for every state, every generated identifier and every text (the empty string
included), `addTodo` yields a state whose `todos` has the previous length plus one and
whose last element has the payload text. -/
theorem addTodo_length_last (nanoid : String) (state : TodoListState) (text : String) :
    (addTodo nanoid state { text := text }).todos.length = state.todos.length + 1
      ∧ ((addTodo nanoid state { text := text }).todos.getLast?).map TodoItem.text = some text := by
  simp [addTodo]

/-- C2: when some item carries the payload id, `updateTodo` changes only the text of the
first such item: that item sits at the same position before and after, afterwards it is
`{ id, text }` with the payload text, and every other position holds the item it held
before (the length is unchanged). -/
theorem updateTodo_existing (state : TodoListState) (payload : UpdatePayload)
    (h : ∃ t ∈ state.todos, t.id = payload.id) :
    (updateTodo state payload).todos.findIdx (fun t => decide (t.id = payload.id))
        < (updateTodo state payload).todos.length
      ∧ (updateTodo state payload).todos.findIdx (fun t => decide (t.id = payload.id))
          = state.todos.findIdx (fun t => decide (t.id = payload.id))
      ∧ (updateTodo state payload).todos[(updateTodo state payload).todos.findIdx
            (fun t => decide (t.id = payload.id))]?
          = some { id := payload.id, text := payload.text }
      ∧ (∀ j : Nat, j ≠ (updateTodo state payload).todos.findIdx (fun t => decide (t.id = payload.id)) →
          (updateTodo state payload).todos[j]? = state.todos[j]?)
      ∧ (updateTodo state payload).todos.length = state.todos.length := by
  obtain ⟨l⟩ := state
  have hlt : l.findIdx (fun t => decide (t.id = payload.id)) < l.length := by
    obtain ⟨t, ht, hid⟩ := h
    exact List.findIdx_lt_length_of_exists ⟨t, ht, by simpa using hid⟩
  have hidx := updateTodo_findIdx l payload
  refine ⟨?_, hidx, ?_, ?_, updateTodo_length l payload⟩
  · rw [hidx, updateTodo_length]; exact hlt
  · rw [hidx]; exact updateTodo_getElem?_eq l payload hlt
  · intro j hj
    rw [hidx] at hj
    exact updateTodo_getElem?_ne l payload j hj

theorem updateTodo_existing_witness :
    (∃ t ∈ (⟨[⟨.num 1, "a"⟩, ⟨.str "1", "b"⟩, ⟨.num 2, "c"⟩]⟩ : TodoListState).todos,
        t.id = TodoId.str "1")
      ∧ (updateTodo ⟨[⟨.num 1, "a"⟩, ⟨.str "1", "b"⟩, ⟨.num 2, "c"⟩]⟩ ⟨.str "1", "z"⟩).todos[
            (updateTodo ⟨[⟨.num 1, "a"⟩, ⟨.str "1", "b"⟩, ⟨.num 2, "c"⟩]⟩ ⟨.str "1", "z"⟩).todos.findIdx
              (fun t => decide (t.id = TodoId.str "1"))]?
          = some ⟨.str "1", "z"⟩
      ∧ (updateTodo ⟨[⟨.num 1, "a"⟩, ⟨.str "1", "b"⟩, ⟨.num 2, "c"⟩]⟩ ⟨.str "1", "z"⟩).todos.length
          = (⟨[⟨.num 1, "a"⟩, ⟨.str "1", "b"⟩, ⟨.num 2, "c"⟩]⟩ : TodoListState).todos.length :=
  have hex : ∃ t ∈ (⟨[⟨.num 1, "a"⟩, ⟨.str "1", "b"⟩, ⟨.num 2, "c"⟩]⟩ : TodoListState).todos,
      t.id = TodoId.str "1" :=
    ⟨⟨.str "1", "b"⟩, by simp, rfl⟩
  ⟨hex, (updateTodo_existing _ ⟨.str "1", "z"⟩ hex).2.2.1,
    (updateTodo_existing _ ⟨.str "1", "z"⟩ hex).2.2.2.2⟩

/-- C3: when the item ids are pairwise distinct and some item carries the payload id,
`removeTodo` yields a `todos` whose length is the previous length minus one and in which
no item carries that id. -/
theorem removeTodo_existing (state : TodoListState) (payload : RemovePayload)
    (hnodup : (state.todos.map TodoItem.id).Nodup)
    (h : ∃ t ∈ state.todos, t.id = payload.id) :
    (removeTodo state payload).todos.length = state.todos.length - 1
      ∧ ∀ t ∈ (removeTodo state payload).todos, t.id ≠ payload.id := by
  obtain ⟨l⟩ := state
  simp only [removeTodo_todos]
  refine ⟨?_, fun t ht => by simpa using (List.mem_filter.1 ht).2⟩
  induction l with
  | nil => simp at h
  | cons t ts ih =>
    simp only [List.map_cons, List.nodup_cons] at hnodup
    by_cases hid : t.id = payload.id
    · have hall : ∀ u ∈ ts, u.id ≠ payload.id := by
        intro u hu hu2
        exact hnodup.1 (List.mem_map.2 ⟨u, hu, by rw [hu2, hid]⟩)
      have hfil : ts.filter (fun t => decide (t.id ≠ payload.id)) = ts :=
        List.filter_eq_self.2 (fun u hu => by simpa using hall u hu)
      simp only [List.filter_cons, hid, hfil]
      simp
    · have hex : ∃ u ∈ ts, u.id = payload.id := by
        obtain ⟨u, hu, hu2⟩ := h
        rcases List.mem_cons.1 hu with rfl | hu
        · exact absurd hu2 hid
        · exact ⟨u, hu, hu2⟩
      have := ih hnodup.2 hex
      have hpos : 0 < ts.length := by
        obtain ⟨u, hu, _⟩ := hex
        exact List.length_pos_of_mem hu
      simp only [List.filter_cons, hid, ne_eq, not_false_eq_true, decide_True, if_true,
        List.length_cons]
      simp only [ne_eq] at this
      omega

theorem removeTodo_existing_witness :
    (removeTodo ⟨[⟨.num 1, "a"⟩, ⟨.str "1", "b"⟩, ⟨.num 2, "c"⟩]⟩ ⟨.str "1"⟩).todos.length
        = (⟨[⟨.num 1, "a"⟩, ⟨.str "1", "b"⟩, ⟨.num 2, "c"⟩]⟩ : TodoListState).todos.length - 1
      ∧ ∀ t ∈ (removeTodo ⟨[⟨.num 1, "a"⟩, ⟨.str "1", "b"⟩, ⟨.num 2, "c"⟩]⟩ ⟨.str "1"⟩).todos,
          t.id ≠ TodoId.str "1" :=
  removeTodo_existing ⟨[⟨.num 1, "a"⟩, ⟨.str "1", "b"⟩, ⟨.num 2, "c"⟩]⟩ ⟨.str "1"⟩
    (by simp) ⟨⟨.str "1", "b"⟩, by simp, rfl⟩

/-- C4: when no item carries the payload id, `updateTodo` (for any text) and `removeTodo`
each return a state whose `todos` is the input `todos`. -/
theorem update_remove_absent (state : TodoListState) (id : TodoId) (text : String)
    (h : ∀ t ∈ state.todos, t.id ≠ id) :
    (updateTodo state { id := id, text := text }).todos = state.todos
      ∧ (removeTodo state { id := id }).todos = state.todos := by
  obtain ⟨l⟩ := state
  refine ⟨?_, ?_⟩
  · rw [updateTodo_absent l { id := id, text := text } h]
  · rw [removeTodo_todos]
    exact List.filter_eq_self.2 (fun u hu => by simpa using h u hu)

theorem update_remove_absent_witness :
    (updateTodo initialState { id := .str "1", text := "x" }).todos = initialState.todos
      ∧ (removeTodo initialState { id := .str "1" }).todos = initialState.todos :=
  update_remove_absent initialState (.str "1") "x" (by simp [initialState])

/-- C5: in every state reached from `initialState` by a finite sequence of `addTodo`,
`updateTodo` and `removeTodo` runs in which the identifiers handed out by the generator
are pairwise distinct (each one is a string, hence distinct from the seeded id 1), the
ids of the items of `todos` are pairwise distinct. -/
theorem reachable_ids_nodup (runs : List (String × Action))
    (hgen : (generated runs).Nodup) :
    ((dispatchAll initialState runs).todos.map TodoItem.id).Nodup := by
  have h := dispatchAll_nodup_aux runs initialState [] (by simp [ids, initialState])
    (by simp [ids, initialState]) (by simpa using hgen)
  simpa [ids] using h

theorem reachable_ids_nodup_witness :
    ((dispatchAll initialState
        [("a", .addTodo { text := "Buy milk" }),
         ("b", .updateTodo { id := .num 1, text := "Hi all" }),
         ("b", .addTodo { text := "" }),
         ("c", .removeTodo { id := .str "a" })]).todos.map TodoItem.id).Nodup :=
  reachable_ids_nodup _ (by simp [generated])

/-- C6: for every state and payload id, the `todos` produced by `removeTodo` is the
sequence of the input items whose id differs from the payload id, in their original
order: it is a subsequence of the input, every item with another id occurs in it as often
as in the input, and no item with the payload id occurs in it. -/
theorem removeTodo_keeps_others (state : TodoListState) (payload : RemovePayload) :
    (removeTodo state payload).todos
        = state.todos.filter (fun t => decide (t.id ≠ payload.id))
      ∧ (removeTodo state payload).todos.Sublist state.todos
      ∧ (∀ t, t.id ≠ payload.id →
          (removeTodo state payload).todos.count t = state.todos.count t)
      ∧ (∀ t, t.id = payload.id → (removeTodo state payload).todos.count t = 0) := by
  rw [removeTodo_todos]
  refine ⟨rfl, List.filter_sublist _, ?_, ?_⟩
  · intro t ht
    simp [List.count_filter, ht]
  · intro t ht
    simp [List.count_eq_zero, List.mem_filter, ht]

/-- C7: `removeTodo` is idempotent: applying it twice with the same payload gives the
same state as applying it once. -/
theorem removeTodo_idempotent (state : TodoListState) (payload : RemovePayload) :
    removeTodo (removeTodo state payload) payload = removeTodo state payload := by
  simp [removeTodo, List.filter_filter]

/-- C8: for every state and payload, present id or not, `updateTodo` keeps the length of
`todos`, keeps the id at every position, and changes the text at no more than one
position. -/
theorem updateTodo_frame (state : TodoListState) (payload : UpdatePayload) :
    (updateTodo state payload).todos.length = state.todos.length
      ∧ (∀ i : Nat, ((updateTodo state payload).todos[i]?).map TodoItem.id
            = (state.todos[i]?).map TodoItem.id)
      ∧ (∀ i j : Nat,
          ((updateTodo state payload).todos[i]?).map TodoItem.text
              ≠ (state.todos[i]?).map TodoItem.text →
          ((updateTodo state payload).todos[j]?).map TodoItem.text
              ≠ (state.todos[j]?).map TodoItem.text →
          i = j) := by
  obtain ⟨l⟩ := state
  refine ⟨updateTodo_length l payload, ?_, ?_⟩
  · intro i
    have h := congrArg (fun ids => ids[i]?) (updateTodo_map_id l payload)
    simpa [List.getElem?_map] using h
  · intro i j hi hj
    have hi2 : i = l.findIdx (fun t => decide (t.id = payload.id)) := by
      by_contra hne
      exact hi (by rw [updateTodo_getElem?_ne l payload i hne])
    have hj2 : j = l.findIdx (fun t => decide (t.id = payload.id)) := by
      by_contra hne
      exact hj (by rw [updateTodo_getElem?_ne l payload j hne])
    rw [hi2, hj2]

/-- C9: for every state, payload and generated identifier, the `todos` produced by
`addTodo` is the input `todos` followed by the one item `{ id, text }` with the generated
identifier and the payload text: every previous item sits at its previous position and
the new item is last. -/
theorem addTodo_appends (nanoid : String) (state : TodoListState) (payload : AddPayload) :
    (addTodo nanoid state payload).todos
        = state.todos ++ [{ id := .str nanoid, text := payload.text }]
      ∧ (∀ i : Nat, i < state.todos.length →
          (addTodo nanoid state payload).todos[i]? = state.todos[i]?)
      ∧ (addTodo nanoid state payload).todos[state.todos.length]?
          = some { id := .str nanoid, text := payload.text } := by
  refine ⟨by simp [addTodo], ?_, ?_⟩
  · intro i hi
    simp [addTodo, List.getElem?_append_left hi]
  · simp [addTodo]

/-- C10, as stated, fails: two runs of `addTodo` on the same slice and the same payload in
which `nanoid()` returns different strings produce different next slices. -/
theorem addTodo_not_function_of_state_payload :
    ¬ ∀ (nanoid₁ nanoid₂ : String) (state : TodoListState) (payload : AddPayload),
        addTodo nanoid₁ state payload = addTodo nanoid₂ state payload := by
  intro h
  have h2 := h "a" "b" initialState { text := "Buy milk" }
  simp [addTodo, initialState] at h2

/-- C10, amended: on every slice and every well-formed payload (an object that carries the
fields the handler reads) a run of each of the three handlers returns a next slice and
does not throw.  A run of `updateTodo` or of `removeTodo` returns the same next slice
whatever `nanoid()` would return, the one computed from (slice, payload) alone.  A run of
`addTodo` returns the slice computed from (slice, payload, identifier returned by
`nanoid()`): two runs on the same slice and payload return the same next slice exactly
when `nanoid()` returns the same identifier, and in every case the two next slices agree
on every item but the last and on the text of the last item. -/
theorem handlers_determinism (nanoid₁ nanoid₂ : String) (state : TodoListState)
    (add : AddPayload) (update : UpdatePayload) (remove : RemovePayload) :
    updateTodoRun nanoid₁ state (some update) = .ok (updateTodo state update)
      ∧ updateTodoRun nanoid₂ state (some update) = updateTodoRun nanoid₁ state (some update)
      ∧ removeTodoRun nanoid₁ state (some remove) = .ok (removeTodo state remove)
      ∧ removeTodoRun nanoid₂ state (some remove) = removeTodoRun nanoid₁ state (some remove)
      ∧ addTodoRun nanoid₁ state (some add) = .ok (addTodo nanoid₁ state add)
      ∧ addTodoRun nanoid₂ state (some add) = .ok (addTodo nanoid₂ state add)
      ∧ (addTodoRun nanoid₁ state (some add) = addTodoRun nanoid₂ state (some add)
          ↔ nanoid₁ = nanoid₂)
      ∧ (addTodo nanoid₁ state add).todos.dropLast = (addTodo nanoid₂ state add).todos.dropLast
      ∧ ((addTodo nanoid₁ state add).todos.getLast?).map TodoItem.text
          = ((addTodo nanoid₂ state add).todos.getLast?).map TodoItem.text := by
  refine ⟨updateTodoRun_wellFormed nanoid₁ state update, ?_,
    removeTodoRun_wellFormed nanoid₁ state remove, ?_,
    addTodoRun_wellFormed nanoid₁ state add, addTodoRun_wellFormed nanoid₂ state add,
    ?_, ?_, ?_⟩
  · rw [updateTodoRun_wellFormed, updateTodoRun_wellFormed]
  · rw [removeTodoRun_wellFormed, removeTodoRun_wellFormed]
  · rw [addTodoRun_wellFormed, addTodoRun_wellFormed]
    constructor
    · intro h
      have h1 : addTodo nanoid₁ state add = addTodo nanoid₂ state add := by
        simpa using h
      have h2 := congrArg (fun s => (s.todos.getLast?).map TodoItem.id) h1
      simpa [addTodo] using h2
    · intro h
      rw [h]
  · simp [addTodo]
  · simp [addTodo]

/-- C11: the end-to-end scenario.  From `initialState`, for every string `g` returned by
the generator, `addTodo` with text "Buy milk" gives the seeded item followed by
`{ id: g, text: "Buy milk" }`; then `updateTodo` with id 1 and text "Hi all" gives a state
whose first item has text "Hi all" and whose second item is unchanged; then `removeTodo`
with id 1 gives exactly the one item `{ id: g, text: "Buy milk" }`. -/
theorem end_to_end_scenario (g : String) :
    (addTodo g initialState { text := "Buy milk" }).todos
        = [{ id := .num 1, text := "Hello everyone." }, { id := .str g, text := "Buy milk" }]
      ∧ ((updateTodo (addTodo g initialState { text := "Buy milk" })
            { id := .num 1, text := "Hi all" }).todos[0]?).map TodoItem.text = some "Hi all"
      ∧ (updateTodo (addTodo g initialState { text := "Buy milk" })
            { id := .num 1, text := "Hi all" }).todos[1]?
          = (addTodo g initialState { text := "Buy milk" }).todos[1]?
      ∧ (updateTodo (addTodo g initialState { text := "Buy milk" })
            { id := .num 1, text := "Hi all" }).todos
          = [{ id := .num 1, text := "Hi all" }, { id := .str g, text := "Buy milk" }]
      ∧ (removeTodo (updateTodo (addTodo g initialState { text := "Buy milk" })
            { id := .num 1, text := "Hi all" }) { id := .num 1 }).todos
          = [{ id := .str g, text := "Buy milk" }] := by
  simp [addTodo, initialState, updateTodo, find, strictEq, setText, removeTodo]

/-- C12: on every state whose item ids are pairwise distinct, and for every payload, the
find-based `updateTodo` and the commented-out map-based `updateTodo` produce the same
`todos`. -/
theorem updateTodo_eq_updateTodoMap (state : TodoListState) (payload : UpdatePayload)
    (hnodup : (state.todos.map TodoItem.id).Nodup) :
    (updateTodo state payload).todos = (updateTodoMap state payload).todos := by
  obtain ⟨l⟩ := state
  induction l with
  | nil => simp [updateTodo_nil, updateTodoMap]
  | cons t ts ih =>
    simp only [List.map_cons, List.nodup_cons] at hnodup
    rw [updateTodoMap_cons]
    by_cases h : t.id = payload.id
    · have hall : ∀ u ∈ ts, u.id ≠ payload.id := by
        intro u hu hu2
        exact hnodup.1 (List.mem_map.2 ⟨u, hu, by rw [hu2, h]⟩)
      rw [updateTodo_cons_eq t ts payload h, updateTodoMap_absent ts payload hall]
      simp [h]
    · rw [updateTodo_cons_ne t ts payload h, ih hnodup.2]
      simp [h]

theorem updateTodo_eq_updateTodoMap_witness :
    (updateTodo { todos := [{ id := .num 1, text := "a" }, { id := .str "1", text := "b" }] }
        { id := .str "1", text := "z" }).todos
      = (updateTodoMap { todos := [{ id := .num 1, text := "a" }, { id := .str "1", text := "b" }] }
        { id := .str "1", text := "z" }).todos :=
  updateTodo_eq_updateTodoMap _ _ (by simp)

/-- C13: for every state, duplicate ids or not, and every payload id, `removeTodo` removes
all the items that carry the id: the length of the result is the previous length minus the
number of items whose id equals the payload id (the two add up to the previous length). -/
theorem removeTodo_length (state : TodoListState) (payload : RemovePayload) :
    (removeTodo state payload).todos.length
        = state.todos.length - state.todos.countP (fun t => decide (t.id = payload.id))
      ∧ (removeTodo state payload).todos.length
          + state.todos.countP (fun t => decide (t.id = payload.id)) = state.todos.length := by
  obtain ⟨l⟩ := state
  rw [removeTodo_todos]
  dsimp only
  have h : (l.filter (fun t => decide (t.id ≠ payload.id))).length
      + l.countP (fun t => decide (t.id = payload.id)) = l.length := by
    induction l with
    | nil => simp
    | cons t ts ih =>
      by_cases hid : t.id = payload.id
      · simp only [List.filter_cons, List.countP_cons, hid, ne_eq, not_true_eq_false,
          decide_False, decide_True, if_true, List.length_cons]
        simp only [ne_eq] at ih
        simp only [Bool.false_eq_true, if_false]
        omega
      · simp only [List.filter_cons, List.countP_cons, hid, ne_eq, not_false_eq_true,
          decide_False, decide_True, if_true, List.length_cons]
        simp only [ne_eq] at ih
        simp only [Bool.false_eq_true, if_false]
        omega
  exact ⟨by omega, h⟩

/-- C14: when no item of `todos` carries the generated identifier `g`, `addTodo` (which
assigns id `g`) followed by `removeTodo` with id `g` returns a state whose `todos` is the
original `todos`. -/
theorem add_then_remove (g : String) (state : TodoListState) (text : String)
    (h : ∀ t ∈ state.todos, t.id ≠ TodoId.str g) :
    (removeTodo (addTodo g state { text := text }) { id := .str g }).todos = state.todos := by
  rw [removeTodo_todos]
  simp only [addTodo, List.concat_eq_append, List.filter_append]
  have hfil : state.todos.filter (fun t => decide (t.id ≠ TodoId.str g)) = state.todos :=
    List.filter_eq_self.2 (fun u hu => by simpa using h u hu)
  rw [hfil]
  simp

theorem add_then_remove_witness :
    (removeTodo (addTodo "g" initialState { text := "Buy milk" }) { id := .str "g" }).todos
      = initialState.todos :=
  add_then_remove "g" initialState "Buy milk" (by simp [initialState])

/-- C15: `updateTodo` is last-write-wins on one id: for every state, id and texts `t₁`,
`t₂`, the update with `t₁` followed by the update with `t₂` yields the state of the update
with `t₂` alone; in particular the same update applied twice equals it applied once. -/
theorem updateTodo_last_write_wins (state : TodoListState) (id : TodoId) (t₁ t₂ : String) :
    updateTodo (updateTodo state { id := id, text := t₁ }) { id := id, text := t₂ }
        = updateTodo state { id := id, text := t₂ }
      ∧ updateTodo (updateTodo state { id := id, text := t₁ }) { id := id, text := t₁ }
        = updateTodo state { id := id, text := t₁ } := by
  obtain ⟨l⟩ := state
  have key : ∀ a b : String,
      updateTodo (updateTodo { todos := l } { id := id, text := a }) { id := id, text := b }
        = updateTodo { todos := l } { id := id, text := b } := by
    intro a b
    have h := updateTodo_updateTodo_todos l id a b
    cases h1 : updateTodo (updateTodo { todos := l } { id := id, text := a })
      { id := id, text := b } with
    | mk l1 =>
      cases h2 : updateTodo { todos := l } { id := id, text := b } with
      | mk l2 =>
        have h3 : updateTodo { todos := (updateTodo { todos := l } { id := id, text := a }).todos }
            { id := id, text := b }
            = updateTodo (updateTodo { todos := l } { id := id, text := a })
              { id := id, text := b } := rfl
        rw [h3, h1, h2] at h
        simpa using h
  exact ⟨key t₁ t₂, key t₁ t₁⟩

end TodoSlice
